import Mathlib

/-!
Verification of the script execution session layer of the repository
(Go package `node`): the `Script` handle with its out-of-memory retry /
lazy-load recovery state machine (`Script.exchange`) and the stack
translator (`Script.rewriteJavaScriptStack`), shallowly embedded from
the source.  The Exchanger transport is external; a run of the state
machine is driven by an explicit list of transport responses, one
consumed per exchange, and the run records the trace of exchanges made.
-/

namespace Node

/-- A JSON-serializable value, modelling the Go `interface{}` values used
for execute arguments and init variables. -/
inductive JVal where
  | null
  | bool (b : Bool)
  | num (n : Int)
  | str (s : String)
deriving Repr, DecidableEq

/-- Embeds `type Session struct { Session string }`. -/
structure Session where
  session : String
deriving Repr, DecidableEq

/-- Embeds `type Init struct { Session; Executable string; Variables map[string]interface{}; Includes []string }`. -/
structure Init where
  session : Session
  executable : String
  Variables : List (String × JVal)
  includes : List String
deriving Repr, DecidableEq

/-- Embeds `type Execute struct { Session; Function string; Args []interface{} }`. -/
structure Execute where
  session : Session
  function : String
  args : List JVal
deriving Repr, DecidableEq

/-- Embeds `var maxScriptErrors = 3`. -/
def maxScriptErrors : Nat := 3

/-- Modelled from the spec: the command-name constants (`describe`,
`execute`, `load`, `unload`) are declared in a part of the `node`
package that is not under `src/`; their string values are the command
strings of the wire protocol (spec section 6). -/
def describe : String := "describe"

/-- Modelled from the spec: see `describe`. -/
def execute : String := "execute"

/-- Modelled from the spec: see `describe`. -/
def load : String := "load"

/-- Modelled from the spec: see `describe`. -/
def unload : String := "unload"

/-- The structured script error `jsError` (message plus optional raw
stack); the type itself is declared outside `src/`, its two fields are
the ones read and written by `Script.rewriteJavaScriptStack`. -/
structure JsErr where
  message : String
  stack : String
deriving Repr, DecidableEq

/-- Modelled from the spec: the error taxonomy of the Exchanger/ipc
layer (whose source is not under `src/`).  The spec distinguishes
out-of-memory (`ipc.ErrOutOfMemory`), load-required (`errLoadRequired`),
a structured script error carrying a message and optional stack, and
opaque transport failures; the categories are disjoint, so
`errors.Is(err, ipc.ErrOutOfMemory)` holds exactly for the out-of-memory
signal and `errors.As(err, &jsErr)` succeeds exactly for the structured
script error. -/
inductive GoError where
  | outOfMemory
  | loadRequired
  | scriptError (j : JsErr)
  | generic (msg : String)
deriving Repr, DecidableEq

/-- Holds when `errors.Is(err, ipc.ErrOutOfMemory)` would, under the modelled taxonomy. -/
def GoError.isOutOfMemory : GoError → Bool
  | .outOfMemory => true
  | _ => false

/-- Result of `errors.As(err, &jsErr)` under the modelled taxonomy. -/
def GoError.asJsError : GoError → Option JsErr
  | .scriptError j => some j
  | _ => none

/-- The client-side state of one script handle:
`type Script struct { *Init; exchanger *exchanger; colOffset int; rowOffset int; errCount int }`.
The exchanger is external and is supplied per run as a response list. -/
structure Script where
  init : Init
  colOffset : Int
  rowOffset : Int
  errCount : Nat
deriving Repr, DecidableEq

/-! ### The frame pattern `vmStackTraceLine`

`regexp.MustCompile` of the anchored pattern
`at <function> (vm.js:<row>:<col>)` with optional leading whitespace,
a lazily-matched function name and digit groups for row and column.
The matcher below implements exactly that regular expression on a
single line: RE2 whitespace class for `\s`, shortest (lazy) split for
the function-name capture, greedy digit runs, both ends anchored. -/

/-- RE2 `\s`: tab, newline, form feed, carriage return, space. -/
def goIsSpace (c : Char) : Bool :=
  c == '\t' || c == '\n' || c == '\x0c' || c == '\r' || c == ' '

/-- Numeric value of a digit run, as `strconv.Atoi` computes it. -/
def digitsVal (ds : List Char) : Nat :=
  ds.foldl (fun n c => 10 * n + (c.toNat - '0'.toNat)) 0

/-- Matches `\d+` (greedy, at least one digit), returning the value and the rest. -/
def parseDigits (cs : List Char) : Option (Nat × List Char) :=
  let ds := cs.takeWhile (fun c => c.isDigit)
  if ds.isEmpty then none
  else some (digitsVal ds, cs.dropWhile (fun c => c.isDigit))

/-- Match a literal character sequence, returning the rest. -/
def expectChars : List Char → List Char → Option (List Char)
  | [], cs => some cs
  | p :: ps, c :: cs => if c == p then expectChars ps cs else none
  | _ :: _, [] => none

/-- The coordinate tail after the whitespace that ends the function name:
literal `(vm.js:`, row digits, `:`, column digits, `)`, end of line. -/
def matchCoords (cs : List Char) : Option (Nat × Nat) :=
  match expectChars "(vm.js:".data cs with
  | none => none
  | some cs1 =>
    match parseDigits cs1 with
    | none => none
    | some (row, cs2) =>
      match cs2 with
      | ':' :: cs3 =>
        match parseDigits cs3 with
        | none => none
        | some (col, cs4) =>
          match cs4 with
          | [')'] => some (row, col)
          | _ => none
      | _ => none

/-- The lazy function-name capture: the shortest prefix (of non-newline
characters) followed by one whitespace character after which the
coordinate tail matches. -/
def findSplit : List Char → Option (List Char × Nat × Nat)
  | [] => none
  | c :: rest =>
    match (if goIsSpace c then matchCoords rest else none) with
    | some (row, col) => some ([], row, col)
    | none =>
      if c == '\n' then none
      else
        match findSplit rest with
        | some (fn, row, col) => some (c :: fn, row, col)
        | none => none

/-- Embeds `vmStackTraceLine.FindStringSubmatch` on one line: on success the
three submatches (function name, row, column). -/
def vmStackTraceLineMatch (line : String) : Option (String × Nat × Nat) :=
  match expectChars "at".data (line.data.dropWhile goIsSpace) with
  | none => none
  | some cs =>
    match cs with
    | c :: rest =>
      if goIsSpace c then
        match findSplit rest with
        | some (fn, row, col) => some (String.mk fn, row, col)
        | none => none
      else none
    | [] => none

/-! ### The stack translator `Script.rewriteJavaScriptStack` -/

/-- Embeds `strings.Split(s, "\n")` on the underlying characters. -/
def splitOnNl : List Char → List (List Char)
  | [] => [[]]
  | c :: rest =>
    if c == '\n' then [] :: splitOnNl rest
    else
      match splitOnNl rest with
      | h :: t => (c :: h) :: t
      | [] => [[c]]

/-- The lines of a raw stack string. -/
def stackLines (stack : String) : List String :=
  (splitOnNl stack.data).map (fun cs => String.mk cs)

/-- Embeds `strings.Trim(s, "\n")`. -/
def goTrimNl (s : String) : String :=
  String.mk (((s.data.dropWhile (fun c => c == '\n')).reverse.dropWhile
    (fun c => c == '\n')).reverse)

/-- Embeds `strings.Join(parts, "\n")`. -/
def joinNl : List String → String
  | [] => ""
  | [x] => x
  | x :: y :: xs => x ++ "\n" ++ joinNl (y :: xs)

/-- The corrected row of a matched frame:
`row -= s.rowOffset + 1 + len(s.Init.Includes)`. -/
def correctedRow (s : Script) (raw : Nat) : Int :=
  (raw : Int) - (s.rowOffset + 1 + (s.init.includes.length : Int))

/-- Embeds `fmt.Sprintf("  at %s (%d:%d)", function, row, column)`. -/
def frameLine (function : String) (row col : Int) : String :=
  "  at " ++ function ++ " (" ++ toString row ++ ":" ++ toString col ++ ")"

/-- What the translation loop does with one line. -/
inductive FrameRes where
  | skip
  | abort
  | emit (f : String)
deriving Repr, DecidableEq

/-- One iteration of the translation loop body: non-matching lines are
skipped; a matched frame renames `module.exports` to `main`, corrects
the row, aborts the whole translation on a negative corrected row, and
corrects the column only on corrected row 1. -/
def frameRes (s : Script) (line : String) : FrameRes :=
  match vmStackTraceLineMatch line with
  | none => .skip
  | some (fn, rawRow, rawCol) =>
    let function := if fn = "module.exports" then "main" else fn
    let row := correctedRow s rawRow
    if row < 0 then .abort
    else
      let column : Int := if row = 1 then (rawCol : Int) - s.colOffset else (rawCol : Int)
      .emit (frameLine function row column)

/-- The translation loop over the (header-stripped) stack lines:
`none` means translation was abandoned. -/
def translateFrames (s : Script) : List String → Option (List String)
  | [] => some []
  | line :: rest =>
    match frameRes s line with
    | .skip => translateFrames s rest
    | .abort => none
    | .emit f =>
      match translateFrames s rest with
      | none => none
      | some st => some (f :: st)

/-- Embeds `func (s *Script) rewriteJavaScriptStack(err error) error`:
non-script errors and script errors without a stack pass through
unchanged; otherwise the stack lines after the header are translated,
abandonment returns the original error, and success returns the script
error with stack `strings.Trim(message + "\n" + strings.Join(frames, "\n"), "\n")`. -/
def Script.rewriteJavaScriptStack (s : Script) (err : GoError) : GoError :=
  match err.asJsError with
  | none => err
  | some jsErr =>
    if jsErr.stack = "" then err
    else
      match translateFrames s ((stackLines jsErr.stack).drop 1) with
      | none => err
      | some stack =>
        .scriptError ⟨jsErr.message, goTrimNl (jsErr.message ++ "\n" ++ joinNl stack)⟩

/-! ### The recovery state machine `Script.exchange` -/

/-- One transport response: a successful exchange or an error. -/
inductive ExResp where
  | ok
  | err (e : GoError)
deriving Repr, DecidableEq

/-- The payload of one exchanger call. -/
inductive Payload where
  | sessionP (s : Session)
  | initP (i : Init)
  | executeP (e : Execute)
deriving Repr, DecidableEq

/-- The observable record of one exchanger call: command, payload, and
whether a result sink was passed. -/
structure ExchangeCall where
  cmd : String
  payload : Payload
  hasSink : Bool
deriving Repr, DecidableEq

/-- Outcome of a run of the recovery state machine.  `stuck` means the
supplied response list was exhausted (the run would have made a further
exchange). -/
inductive RunResult where
  | ok
  | fail (e : GoError)
  | stuck
deriving Repr, DecidableEq

/-- Result, post-state and exchange trace of one public call. -/
structure RunOut where
  result : RunResult
  script : Script
  calls : List ExchangeCall
deriving Repr, DecidableEq

/-- Prepend a performed exchange to the trace of a run. -/
def addCall (c : ExchangeCall) (o : RunOut) : RunOut :=
  ⟨o.result, o.script, c :: o.calls⟩

/-- The automatic load exchange: `s.exchanger.exchange(load, s.Init, nil)` —
the full Init payload, no result sink. -/
def Script.loadCall (s : Script) : ExchangeCall :=
  ⟨load, .initP s.init, false⟩

/-- Embeds `func (s *Script) exchange(command string, payload, result interface{}) error`,
driven by the response list (one response consumed per exchanger call):
out-of-memory increments `errCount` and retries the same command until
`errCount >= maxScriptErrors`, where the error is returned; success
resets `errCount`; load-required issues the load exchange, returning a
error of a failed load through the stack translator without touching
`errCount`, and retrying the original command after a successful load;
any other error resets `errCount` and is returned through the stack
translator. -/
def Script.exchange : Script → List ExResp → String → Payload → Bool → RunOut
  | s, [], _, _, _ => ⟨.stuck, s, []⟩
  | s, .ok :: _, cmd, p, sink => ⟨.ok, { s with errCount := 0 }, [⟨cmd, p, sink⟩]⟩
  | s, .err .outOfMemory :: rs, cmd, p, sink =>
    let s' := { s with errCount := s.errCount + 1 }
    if s'.errCount ≥ maxScriptErrors then ⟨.fail .outOfMemory, s', [⟨cmd, p, sink⟩]⟩
    else addCall ⟨cmd, p, sink⟩ (Script.exchange s' rs cmd p sink)
  | s, .err .loadRequired :: [], cmd, p, sink => ⟨.stuck, s, [⟨cmd, p, sink⟩, s.loadCall]⟩
  | s, .err .loadRequired :: .ok :: rs, cmd, p, sink =>
    addCall ⟨cmd, p, sink⟩ (addCall s.loadCall (Script.exchange s rs cmd p sink))
  | s, .err .loadRequired :: .err e :: _, cmd, p, sink =>
    ⟨.fail (s.rewriteJavaScriptStack e), s, [⟨cmd, p, sink⟩, s.loadCall]⟩
  | s, .err e :: _, cmd, p, sink =>
    ⟨.fail (s.rewriteJavaScriptStack e), { s with errCount := 0 }, [⟨cmd, p, sink⟩]⟩

/-- Embeds `func (s *Script) Describe() (script.Symbols, error)`: a `describe`
exchange for the session, with a result sink (the decoded symbols map is
a concern of the transport and is not modelled). -/
def Script.Describe (s : Script) (responses : List ExResp) : RunOut :=
  Script.exchange s responses describe (.sessionP s.init.session) true

/-- Embeds `func (s *Script) Execute(name string, args []interface{}, result interface{}) error`:
a nil args slice is replaced by an empty one, then an `execute` exchange
is made; `sink` records whether the caller passed a result container. -/
def Script.Execute (s : Script) (responses : List ExResp) (name : String)
    (args : Option (List JVal)) (sink : Bool) : RunOut :=
  Script.exchange s responses execute (.executeP ⟨s.init.session, name, args.getD []⟩) sink

/-- A sample session descriptor with no includes. -/
def init0 : Init := ⟨⟨"sess"⟩, "exports.f = 1", [], []⟩

/-- A sample handle: `colOffset = 10`, `rowOffset = 2`, fresh counter. -/
def script0 : Script := ⟨init0, 10, 2, 0⟩

/-- An out-of-memory error is not a structured script error under the
modelled taxonomy, so the stack translator leaves it unchanged. -/
lemma isOutOfMemory_eq {e : GoError} (h : e.isOutOfMemory = true) : e = .outOfMemory := by
  cases e <;> simp_all [GoError.isOutOfMemory]

/-- Claim C1: for a fresh handle (failure counter zero) whose exchanger
reports out-of-memory on every exchange (here: on the first three, the
rest of the response stream being arbitrary and never consumed), a
single `Execute` performs exactly 3 exchanges, all of the same `execute`
command (in particular no `load` exchange), and returns the
out-of-memory error. -/
theorem c1_retry_ceiling (init : Init) (co ro : Int) (rest : List ExResp)
    (name : String) (args : Option (List JVal)) (sink : Bool) :
    (Script.Execute ⟨init, co, ro, 0⟩
        (.err .outOfMemory :: .err .outOfMemory :: .err .outOfMemory :: rest)
        name args sink).result = .fail .outOfMemory ∧
    (Script.Execute ⟨init, co, ro, 0⟩
        (.err .outOfMemory :: .err .outOfMemory :: .err .outOfMemory :: rest)
        name args sink).calls =
      [⟨execute, .executeP ⟨init.session, name, args.getD []⟩, sink⟩,
       ⟨execute, .executeP ⟨init.session, name, args.getD []⟩, sink⟩,
       ⟨execute, .executeP ⟨init.session, name, args.getD []⟩, sink⟩] :=
  ⟨rfl, rfl⟩

/-- Claim C2: when an out-of-memory error is what a call returns (which
happens exactly when the failure counter reached `maxScriptErrors`), the
returned error equals its stack-translated form: under the modelled
error taxonomy an out-of-memory error carries no script stack, so the
stack translator is the identity on it, and the code returning the
error unchanged coincides with returning its translated form. -/
theorem c2_oom_translated (s : Script) (rs : List ExResp) (cmd : String)
    (p : Payload) (sink : Bool) (e : GoError)
    (h1 : (Script.exchange s rs cmd p sink).result = .fail e)
    (h2 : e.isOutOfMemory = true) :
    (Script.exchange s rs cmd p sink).result = .fail (s.rewriteJavaScriptStack e) := by
  cases isOutOfMemory_eq h2
  exact h1

/-- Witness for C2 at the retry-ceiling scenario of C1. -/
theorem c2_oom_translated_witness :
    (Script.exchange script0 [.err .outOfMemory, .err .outOfMemory, .err .outOfMemory]
        execute (.executeP ⟨init0.session, "f", []⟩) true).result =
      .fail (script0.rewriteJavaScriptStack .outOfMemory) :=
  c2_oom_translated script0 [.err .outOfMemory, .err .outOfMemory, .err .outOfMemory]
    execute (.executeP ⟨init0.session, "f", []⟩) true .outOfMemory rfl rfl

/-- Claim C3: for a fresh handle whose exchanger returns load-required
on the first `execute` exchange and then succeeds on the `load` and on
the retried `execute`, one `Execute` call succeeds, issuing exactly one
`load` exchange — carrying the full `Init` (session, executable,
variables, includes) with no result sink — and exactly two `execute`
exchanges. -/
theorem c3_lazy_load (init : Init) (co ro : Int) (name : String)
    (args : Option (List JVal)) (sink : Bool) :
    (Script.Execute ⟨init, co, ro, 0⟩ [.err .loadRequired, .ok, .ok] name args sink).result = .ok ∧
    (Script.Execute ⟨init, co, ro, 0⟩ [.err .loadRequired, .ok, .ok] name args sink).calls =
      [⟨execute, .executeP ⟨init.session, name, args.getD []⟩, sink⟩,
       ⟨load, .initP init, false⟩,
       ⟨execute, .executeP ⟨init.session, name, args.getD []⟩, sink⟩] :=
  ⟨rfl, rfl⟩

/-- Claim C4: if the automatically issued `load` exchange after a
load-required signal itself fails (with any error `e`), `Execute`
returns that load failure passed through the stack translator, makes no
further exchange after the `load` (no retry of the original command),
and leaves the failure counter unchanged. -/
theorem c4_load_failure_direct (init : Init) (co ro : Int) (n : Nat)
    (name : String) (args : Option (List JVal)) (sink : Bool) (e : GoError) :
    (Script.Execute ⟨init, co, ro, n⟩ [.err .loadRequired, .err e] name args sink).result =
      .fail (Script.rewriteJavaScriptStack ⟨init, co, ro, n⟩ e) ∧
    (Script.Execute ⟨init, co, ro, n⟩ [.err .loadRequired, .err e] name args sink).script.errCount = n ∧
    (Script.Execute ⟨init, co, ro, n⟩ [.err .loadRequired, .err e] name args sink).calls =
      [⟨execute, .executeP ⟨init.session, name, args.getD []⟩, sink⟩,
       ⟨load, .initP init, false⟩] :=
  ⟨rfl, rfl, rfl⟩

/-- Claim C6: after `N < 3` consecutive out-of-memory responses followed
by one successful exchange, a single `Execute` succeeds with the failure
counter reset to zero, so a subsequent call whose exchanges all report
out-of-memory is again retried up to 3 attempts (3 exchanges are made)
rather than failing immediately. -/
theorem c6_reset_on_success (init : Init) (co ro : Int) (name : String)
    (args : Option (List JVal)) (sink : Bool) (N : Nat) (hN : N < 3) :
    (Script.Execute ⟨init, co, ro, 0⟩
        (List.replicate N (.err .outOfMemory) ++ [.ok]) name args sink).result = .ok ∧
    (Script.Execute ⟨init, co, ro, 0⟩
        (List.replicate N (.err .outOfMemory) ++ [.ok]) name args sink).script.errCount = 0 ∧
    (Script.Execute
        (Script.Execute ⟨init, co, ro, 0⟩
          (List.replicate N (.err .outOfMemory) ++ [.ok]) name args sink).script
        (List.replicate 3 (.err .outOfMemory)) name args sink).calls.length = 3 ∧
    (Script.Execute
        (Script.Execute ⟨init, co, ro, 0⟩
          (List.replicate N (.err .outOfMemory) ++ [.ok]) name args sink).script
        (List.replicate 3 (.err .outOfMemory)) name args sink).result = .fail .outOfMemory := by
  interval_cases N <;> exact ⟨rfl, rfl, rfl, rfl⟩

/-- Witness for C6 at `N = 2` on the sample descriptor. -/
theorem c6_reset_on_success_witness :
    2 < 3 ∧
    ((Script.Execute ⟨init0, 0, 0, 0⟩
        (List.replicate 2 (.err .outOfMemory) ++ [.ok]) "f" none true).result = .ok ∧
    (Script.Execute ⟨init0, 0, 0, 0⟩
        (List.replicate 2 (.err .outOfMemory) ++ [.ok]) "f" none true).script.errCount = 0 ∧
    (Script.Execute
        (Script.Execute ⟨init0, 0, 0, 0⟩
          (List.replicate 2 (.err .outOfMemory) ++ [.ok]) "f" none true).script
        (List.replicate 3 (.err .outOfMemory)) "f" none true).calls.length = 3 ∧
    (Script.Execute
        (Script.Execute ⟨init0, 0, 0, 0⟩
          (List.replicate 2 (.err .outOfMemory) ++ [.ok]) "f" none true).script
        (List.replicate 3 (.err .outOfMemory)) "f" none true).result = .fail .outOfMemory) :=
  ⟨by decide, c6_reset_on_success init0 0 0 "f" none true 2 (by decide)⟩

/-- If some line in the given list is a matched frame with a negative
corrected row, the translation loop abandons. -/
lemma translateFrames_none (s : Script) :
    ∀ L : List String, (∃ line ∈ L, frameRes s line = .abort) → translateFrames s L = none := by
  intro L
  induction L with
  | nil => rintro ⟨l, hl, _⟩; simp at hl
  | cons line rest ih =>
    rintro ⟨l, hl, habort⟩
    rcases List.mem_cons.1 hl with rfl | hl'
    · simp [translateFrames, habort]
    · have hrec := ih ⟨l, hl', habort⟩
      cases hr : frameRes s line <;> simp [translateFrames, hr, hrec]

/-- Claim C8: if any stack line after the header matches the frame
pattern with a negative corrected row, translation is abandoned entirely
and the returned error is exactly the original, untranslated error. -/
theorem c8_negative_row_abandons (s : Script) (j : JsErr)
    (h : ∃ line ∈ (stackLines j.stack).drop 1, ∃ fn rawRow rawCol,
      vmStackTraceLineMatch line = some (fn, rawRow, rawCol) ∧ correctedRow s rawRow < 0) :
    s.rewriteJavaScriptStack (.scriptError j) = .scriptError j := by
  have habort : ∃ line ∈ (stackLines j.stack).drop 1, frameRes s line = .abort := by
    obtain ⟨line, hmem, fn, rawRow, rawCol, hmatch, hneg⟩ := h
    exact ⟨line, hmem, by simp [frameRes, hmatch, hneg]⟩
  unfold Script.rewriteJavaScriptStack
  simp only [GoError.asJsError]
  by_cases hs : j.stack = ""
  · simp [hs]
  · rw [List.drop_one] at habort
    simp [hs, translateFrames_none s _ habort]

/-- Witness for C8: a frame at raw row 1 under `rowOffset = 2` has
corrected row `-2`, so the error comes back untranslated. -/
theorem c8_negative_row_abandons_witness :
    Script.rewriteJavaScriptStack script0 (.scriptError ⟨"m", "h\n  at f (vm.js:1:1)"⟩) =
      .scriptError ⟨"m", "h\n  at f (vm.js:1:1)"⟩ :=
  c8_negative_row_abandons script0 ⟨"m", "h\n  at f (vm.js:1:1)"⟩
    ⟨"  at f (vm.js:1:1)", by decide, "f", 1, 1, by decide, by decide⟩

/-- Claim C7: with `rowOffset = 2`, zero includes and `colOffset = 10`,
translating a script-error stack whose first line is a header
(discarded) and whose second line is the frame
`at module.exports (vm.js:5:15)` renames the function to `main`,
computes row `5 - (2 + 1 + 0) = 2`, leaves the column at 15 because the
corrected row is not 1, and produces the frame line `  at main (2:15)`. -/
theorem c7_stack_translation :
    Script.rewriteJavaScriptStack script0
        (.scriptError ⟨"Error: boom",
          "at Object.<anonymous> (vm.js:1:1)\n  at module.exports (vm.js:5:15)"⟩) =
      .scriptError ⟨"Error: boom", "Error: boom\n  at main (2:15)"⟩ := by
  rfl

/-- Claim C9: a structured script error whose stack string is empty is
returned to the caller unmodified — the stack translator returns exactly
the input error, and an `Execute` hitting such an error returns exactly
that error value. -/
theorem c9_empty_stack_passthrough (s : Script) (m : String) :
    s.rewriteJavaScriptStack (.scriptError ⟨m, ""⟩) = .scriptError ⟨m, ""⟩ ∧
    ∀ (name : String) (args : Option (List JVal)) (sink : Bool),
      (Script.Execute s [.err (.scriptError ⟨m, ""⟩)] name args sink).result =
        .fail (.scriptError ⟨m, ""⟩) :=
  ⟨rfl, fun _ _ _ => rfl⟩

/-! ### Counter behaviour across a whole call (claim C5) -/

/-- Branch equation: exhausted responses. -/
lemma exchange_nil (s : Script) (cmd : String) (p : Payload) (sink : Bool) :
    Script.exchange s [] cmd p sink = ⟨.stuck, s, []⟩ := rfl

/-- Branch equation: successful exchange. -/
lemma exchange_ok (s : Script) (rs : List ExResp) (cmd : String) (p : Payload) (sink : Bool) :
    Script.exchange s (.ok :: rs) cmd p sink =
      ⟨.ok, { s with errCount := 0 }, [⟨cmd, p, sink⟩]⟩ := rfl

/-- Branch equation: out-of-memory response. -/
lemma exchange_oom (s : Script) (rs : List ExResp) (cmd : String) (p : Payload) (sink : Bool) :
    Script.exchange s (.err .outOfMemory :: rs) cmd p sink =
      if s.errCount + 1 ≥ maxScriptErrors
      then ⟨.fail .outOfMemory, { s with errCount := s.errCount + 1 }, [⟨cmd, p, sink⟩]⟩
      else addCall ⟨cmd, p, sink⟩
        (Script.exchange { s with errCount := s.errCount + 1 } rs cmd p sink) := rfl

/-- Branch equation: load-required with no response left for the load. -/
lemma exchange_lr_nil (s : Script) (cmd : String) (p : Payload) (sink : Bool) :
    Script.exchange s [.err .loadRequired] cmd p sink =
      ⟨.stuck, s, [⟨cmd, p, sink⟩, s.loadCall]⟩ := rfl

/-- Branch equation: load-required with a successful load. -/
lemma exchange_lr_ok (s : Script) (rs : List ExResp) (cmd : String) (p : Payload) (sink : Bool) :
    Script.exchange s (.err .loadRequired :: .ok :: rs) cmd p sink =
      addCall ⟨cmd, p, sink⟩ (addCall s.loadCall (Script.exchange s rs cmd p sink)) := rfl

/-- Branch equation: load-required with a failing load. -/
lemma exchange_lr_err (s : Script) (e : GoError) (rs : List ExResp) (cmd : String)
    (p : Payload) (sink : Bool) :
    Script.exchange s (.err .loadRequired :: .err e :: rs) cmd p sink =
      ⟨.fail (s.rewriteJavaScriptStack e), s, [⟨cmd, p, sink⟩, s.loadCall]⟩ := rfl

/-- Branch equation: structured script error from the command. -/
lemma exchange_js (s : Script) (j : JsErr) (rs : List ExResp) (cmd : String)
    (p : Payload) (sink : Bool) :
    Script.exchange s (.err (.scriptError j) :: rs) cmd p sink =
      ⟨.fail (s.rewriteJavaScriptStack (.scriptError j)),
       { s with errCount := 0 }, [⟨cmd, p, sink⟩]⟩ := rfl

/-- Branch equation: opaque transport error from the command. -/
lemma exchange_generic (s : Script) (m : String) (rs : List ExResp) (cmd : String)
    (p : Payload) (sink : Bool) :
    Script.exchange s (.err (.generic m) :: rs) cmd p sink =
      ⟨.fail (s.rewriteJavaScriptStack (.generic m)),
       { s with errCount := 0 }, [⟨cmd, p, sink⟩]⟩ := rfl

/-- A run with an empty exchange trace can only be a stuck run. -/
lemma exchange_calls_nil (s : Script) (rs : List ExResp) (cmd : String) (p : Payload)
    (sink : Bool) (h : (Script.exchange s rs cmd p sink).calls = []) :
    (Script.exchange s rs cmd p sink).result = .stuck := by
  induction s, rs, cmd, p, sink using Script.exchange.induct with
  | case1 s cmd p sink => rfl
  | case2 s rs cmd p sink => simp [exchange_ok] at h
  | case3 s rs cmd p sink s' hc =>
    rw [exchange_oom, if_pos (show s.errCount + 1 ≥ maxScriptErrors from hc)] at h
    simp at h
  | case4 s rs cmd p sink s' hc _ =>
    rw [exchange_oom, if_neg (show ¬s.errCount + 1 ≥ maxScriptErrors from hc)] at h
    simp [addCall] at h
  | case5 s cmd p sink => rfl
  | case6 s rs cmd p sink _ => simp [exchange_lr_ok, addCall] at h
  | case7 s e rs cmd p sink => simp [exchange_lr_err] at h
  | case8 s e tail cmd p sink h1 h2 h3 h4 =>
    cases e with
    | outOfMemory => exact (h1 rfl).elim
    | loadRequired =>
      rcases tail with _ | ⟨r2, t2⟩
      · exact (h2 rfl rfl).elim
      · rcases r2 with _ | e2
        · exact (h3 t2 rfl rfl).elim
        · exact (h4 e2 t2 rfl rfl).elim
    | scriptError j => simp [exchange_js] at h
    | generic m => simp [exchange_generic] at h

/-- Counter behaviour of one run of the recovery state machine: the
counter is zero after a successful run; it is zero after a failing run
whose error is not out-of-memory and whose final exchange was not the
automatic `load`; and it is bounded by `max (start + 1) maxScriptErrors`. -/
lemma exchange_props (s : Script) (rs : List ExResp) (cmd : String) (p : Payload) (sink : Bool) :
    ((Script.exchange s rs cmd p sink).result = .ok →
      (Script.exchange s rs cmd p sink).script.errCount = 0) ∧
    (∀ e, (Script.exchange s rs cmd p sink).result = .fail e → e.isOutOfMemory = false →
      (∀ c, (Script.exchange s rs cmd p sink).calls.getLast? = some c → c.cmd ≠ load) →
      (Script.exchange s rs cmd p sink).script.errCount = 0) ∧
    (Script.exchange s rs cmd p sink).script.errCount ≤ max (s.errCount + 1) maxScriptErrors := by
  induction s, rs, cmd, p, sink using Script.exchange.induct with
  | case1 s cmd p sink =>
    refine ⟨by simp [exchange_nil], by simp [exchange_nil], ?_⟩
    simp [exchange_nil, maxScriptErrors]
  | case2 s rs cmd p sink =>
    refine ⟨by simp [exchange_ok], by simp [exchange_ok], ?_⟩
    simp [exchange_ok]
  | case3 s rs cmd p sink s' hc =>
    rw [exchange_oom, if_pos (show s.errCount + 1 ≥ maxScriptErrors from hc)]
    refine ⟨by simp, ?_, by simp [maxScriptErrors]⟩
    intro e he hoom _
    simp at he
    rw [← he] at hoom
    simp [GoError.isOutOfMemory] at hoom
  | case4 s rs cmd p sink s' hc ih =>
    have hc' : ¬s.errCount + 1 ≥ maxScriptErrors := hc
    rw [exchange_oom, if_neg hc']
    obtain ⟨ih1, ih2, ih3⟩ := ih
    refine ⟨?_, ?_, ?_⟩
    · intro h
      simp only [addCall] at h ⊢
      exact ih1 h
    · intro e he hoom hlast
      simp only [addCall] at he hlast ⊢
      rcases hcalls :
          (Script.exchange { s with errCount := s.errCount + 1 } rs cmd p sink).calls with
        _ | ⟨c0, l0⟩
      · have hstuck := exchange_calls_nil _ rs cmd p sink hcalls
        rw [he] at hstuck
        simp at hstuck
      · refine ih2 e he hoom ?_
        intro c hcz
        refine hlast c ?_
        rw [hcalls, List.getLast?_cons_cons]
        rw [hcalls] at hcz
        exact hcz
    · have ih3' : (Script.exchange { s with errCount := s.errCount + 1 } rs cmd p sink).script.errCount ≤
          max (s.errCount + 1 + 1) maxScriptErrors := ih3
      simp only [addCall]
      simp only [maxScriptErrors] at ih3' hc' ⊢
      omega
  | case5 s cmd p sink =>
    refine ⟨by simp [exchange_lr_nil], by simp [exchange_lr_nil], ?_⟩
    simp [exchange_lr_nil, maxScriptErrors]
  | case6 s rs cmd p sink ih =>
    rw [exchange_lr_ok]
    obtain ⟨ih1, ih2, ih3⟩ := ih
    refine ⟨?_, ?_, ?_⟩
    · intro h
      simp only [addCall] at h ⊢
      exact ih1 h
    · intro e he hoom hlast
      simp only [addCall] at he hlast ⊢
      rcases hcalls : (Script.exchange s rs cmd p sink).calls with _ | ⟨c0, l0⟩
      · have hstuck := exchange_calls_nil s rs cmd p sink hcalls
        rw [he] at hstuck
        simp at hstuck
      · refine ih2 e he hoom ?_
        intro c hcz
        refine hlast c ?_
        rw [hcalls, List.getLast?_cons_cons, List.getLast?_cons_cons]
        rw [hcalls] at hcz
        exact hcz
    · simp only [addCall]
      exact ih3
  | case7 s e rs cmd p sink =>
    rw [exchange_lr_err]
    refine ⟨by simp, ?_, by simp [maxScriptErrors]⟩
    intro e' he' hoom hlast
    have : s.loadCall.cmd ≠ load := by
      refine hlast s.loadCall ?_
      simp [List.getLast?_cons_cons]
    exact (this rfl).elim
  | case8 s e tail cmd p sink h1 h2 h3 h4 =>
    cases e with
    | outOfMemory => exact (h1 rfl).elim
    | loadRequired =>
      rcases tail with _ | ⟨r2, t2⟩
      · exact (h2 rfl rfl).elim
      · rcases r2 with _ | e2
        · exact (h3 t2 rfl rfl).elim
        · exact (h4 e2 t2 rfl rfl).elim
    | scriptError j =>
      refine ⟨by simp [exchange_js], by simp [exchange_js], ?_⟩
      simp [exchange_js]
    | generic m =>
      refine ⟨by simp [exchange_generic], by simp [exchange_generic], ?_⟩
      simp [exchange_generic]

/-- Counterexample to claim C5 as stated: (a) after one out-of-memory
response, a load-required signal and a failing load, the call returns a
non-retryable (`generic`) error but the counter is 1, not 0; (b) a call
that starts at the ceiling left by a previous call (counter 3) and hits
one more out-of-memory response pushes the counter to 4, exceeding the
maximum of 3. -/
theorem c5_counterexample :
    ((Script.Execute script0 [.err .outOfMemory, .err .loadRequired, .err (.generic "boom")]
        "f" none true).result = .fail (.generic "boom") ∧
     (Script.Execute script0 [.err .outOfMemory, .err .loadRequired, .err (.generic "boom")]
        "f" none true).script.errCount = 1) ∧
    (Script.Execute (Script.Execute script0
        [.err .outOfMemory, .err .outOfMemory, .err .outOfMemory] "f" none true).script
        [.err .outOfMemory] "f" none true).script.errCount = 4 :=
  ⟨⟨rfl, rfl⟩, rfl⟩

/-- Claim C5 (amended): for every `Describe` or `Execute` call, the
failure counter is zero afterwards whenever the call returned success,
or returned a non-out-of-memory error whose final exchange was not the
automatic `load` (a failed load leaves the counter untouched); and the
counter stays at most 3 after any call that began with the counter
strictly below 3 (only a call beginning at the ceiling can push it
beyond 3). -/
theorem c5_amended_counters (s : Script) (rs : List ExResp) (name : String)
    (args : Option (List JVal)) (sink : Bool) :
    (((Script.Describe s rs).result = .ok → (Script.Describe s rs).script.errCount = 0) ∧
     (∀ e, (Script.Describe s rs).result = .fail e → e.isOutOfMemory = false →
        (∀ c, (Script.Describe s rs).calls.getLast? = some c → c.cmd ≠ load) →
        (Script.Describe s rs).script.errCount = 0) ∧
     (s.errCount + 1 ≤ maxScriptErrors →
        (Script.Describe s rs).script.errCount ≤ maxScriptErrors)) ∧
    (((Script.Execute s rs name args sink).result = .ok →
        (Script.Execute s rs name args sink).script.errCount = 0) ∧
     (∀ e, (Script.Execute s rs name args sink).result = .fail e → e.isOutOfMemory = false →
        (∀ c, (Script.Execute s rs name args sink).calls.getLast? = some c → c.cmd ≠ load) →
        (Script.Execute s rs name args sink).script.errCount = 0) ∧
     (s.errCount + 1 ≤ maxScriptErrors →
        (Script.Execute s rs name args sink).script.errCount ≤ maxScriptErrors)) := by
  constructor
  · obtain ⟨h1, h2, h3⟩ := exchange_props s rs describe (.sessionP s.init.session) true
    refine ⟨h1, h2, fun hle => le_trans h3 ?_⟩
    simp only [maxScriptErrors] at hle ⊢
    omega
  · obtain ⟨h1, h2, h3⟩ :=
      exchange_props s rs execute (.executeP ⟨s.init.session, name, args.getD []⟩) sink
    refine ⟨h1, h2, fun hle => le_trans h3 ?_⟩
    simp only [maxScriptErrors] at hle ⊢
    omega

/-- Witness for the amended C5: a successful `Describe` resets the
counter; an `Execute` failing with an opaque error from the command
itself resets the counter; a bounded-start `Execute` stays within the
ceiling. -/
theorem c5_amended_counters_witness :
    (Script.Describe script0 [.ok]).script.errCount = 0 ∧
    (Script.Execute script0 [.err (.generic "x")] "f" none true).script.errCount = 0 ∧
    (Script.Execute script0 [.err .outOfMemory] "f" none true).script.errCount ≤ maxScriptErrors := by
  refine ⟨(c5_amended_counters script0 [.ok] "f" none true).1.1 rfl,
          (c5_amended_counters script0 [.err (.generic "x")] "f" none true).2.2.1
            (.generic "x") rfl rfl ?_,
          (c5_amended_counters script0 [.err .outOfMemory] "f" none true).2.2.2 (by decide)⟩
  intro c hc
  have hcalls : (Script.Execute script0 [.err (.generic "x")] "f" none true).calls =
      [⟨execute, .executeP ⟨init0.session, "f", []⟩, true⟩] := rfl
  rw [hcalls] at hc
  simp at hc
  rw [← hc]
  decide

/-- Claim C10: a frame whose corrected row is exactly 0 does not abandon
translation — only strictly negative corrected rows do — and is emitted
with row 0 and the raw column (for any `colOffset`, since the column
correction applies only when the corrected row equals 1). -/
theorem c10_row_zero_emitted (co : Int) :
    Script.rewriteJavaScriptStack ⟨init0, co, 2, 0⟩
        (.scriptError ⟨"m", "h\n  at f (vm.js:3:15)"⟩) =
      .scriptError ⟨"m", "m\n  at f (0:15)"⟩ := by
  rfl

end Node
